import Mathlib

/-!
Shallow embedding of `iree/compiler/Translation/SPIRV/EmbeddedKernels.cpp`.

The embedded kernel table (generated at build time from the `Kernels/`
directory and reached through `spirv_kernels::Kernels_create()` /
`Kernels_size()`) is modelled as an explicit list of entries passed to every
function that reads it; the C++ code treats it as an immutable global.
MLIR shaped types are modelled by their dimension lists (`List Int`,
`getDimSize` returns an `int64_t`, with `-1` the dynamic-dimension
sentinel).  C++ `uint32_t` values are modelled as `Nat` together with
explicit reduction modulo `2 ^ 32` where a narrowing conversion happens in
the source.
-/

/-- One entry of the build-time table of contents: a kernel file name, its
raw bytes and the declared byte size (mirrors the generated file TOC struct
with fields `name`, `data`, `size`). -/
structure KernelEntry where
  name : String
  data : List Nat
  size : Nat
deriving DecidableEq

/-- Little-endian reinterpretation of `size` bytes as `size / 4` four-byte
words, mirroring `code.resize(size / 4); memcpy(code.data(), data, size)`
on a little-endian host. -/
def bytesToWords (data : List Nat) (size : Nat) : List Nat :=
  (List.range (size / 4)).map (fun i =>
    data.getD (4 * i) 0 + 256 * data.getD (4 * i + 1) 0 +
      65536 * data.getD (4 * i + 2) 0 + 16777216 * data.getD (4 * i + 3) 0)

/-- Model of `readEmbeddedKernelCode`: scan the table in order; on the first exact
name match return that entry reinterpreted as words, otherwise return the
empty vector. -/
def readEmbeddedKernelCode (table : List KernelEntry) (kernelName : String) :
    List Nat :=
  match table with
  | [] => []
  | e :: rest =>
      if e.name = kernelName then bytesToWords e.data e.size
      else readEmbeddedKernelCode rest kernelName

/-- Model of `iree::VkDescriptorSetLayoutBindingDefT`. -/
structure VkDescriptorSetLayoutBindingDefT where
  binding : Nat
  descriptor_count : Nat
  descriptor_type : Nat
  stage_flags : Nat
deriving DecidableEq

/-- Model of `iree::VkDescriptorSetLayoutDefT`. -/
structure VkDescriptorSetLayoutDefT where
  bindings : List VkDescriptorSetLayoutBindingDefT
deriving DecidableEq

/-- Model of `iree::VkPipelineLayoutDefT`. -/
structure VkPipelineLayoutDefT where
  buffer_binding_set : Nat
  descriptor_set_layouts : List VkDescriptorSetLayoutDefT
deriving DecidableEq

/-- Model of `iree::VkSpecializationMapEntryDefT`. -/
structure VkSpecializationMapEntryDefT where
  constant_id : Nat
  uint32_value : Nat
deriving DecidableEq

/-- Model of `iree::VkSpecializationInfoDefT`. -/
structure VkSpecializationInfoDefT where
  map_entries : List VkSpecializationMapEntryDefT
deriving DecidableEq

/-- Model of `iree::SpirVExecutableDefT`; the `unique_ptr` members start out null,
modelled as `Option` fields that start out `none`. -/
structure SpirVExecutableDefT where
  tag : String
  entry_points : List String
  code : List Nat
  pipeline_layout : Option VkPipelineLayoutDefT
  specialization_info : Option VkSpecializationInfoDefT
deriving DecidableEq

/-- A freshly default-constructed `SpirVExecutableDefT`, as the caller of
`tryEmbeddedKernelRewrite` would allocate it. -/
def emptySpirVExecutableDef : SpirVExecutableDefT :=
  { tag := "", entry_points := [], code := [], pipeline_layout := none,
    specialization_info := none }

/-- Model of `addDescriptorSetLayoutBinding`: push one storage-buffer binding
(descriptor type 7, compute stage flag 0x20) onto the layout. -/
def addDescriptorSetLayoutBinding (binding : Nat)
    (dsl : VkDescriptorSetLayoutDefT) : VkDescriptorSetLayoutDefT :=
  { dsl with
    bindings := dsl.bindings ++
      [{ binding := binding, descriptor_count := 1, descriptor_type := 7,
         stage_flags := 0x20 }] }

/-- Model of `addSpecializationMapEntry`: push one (constant id, uint32 value) map
entry onto the specialization info. -/
def addSpecializationMapEntry (constant_id : Nat) (value : Nat)
    (info : VkSpecializationInfoDefT) : VkSpecializationInfoDefT :=
  { info with
    map_entries := info.map_entries ++
      [{ constant_id := constant_id, uint32_value := value }] }

/-- The C++ narrowing conversion `uint32_t m = <int64 dim size>`: reduction
modulo `2 ^ 32` of the signed 64-bit value. -/
def toU32 (d : Int) : Nat := (d % (2 ^ 32)).toNat

/-- Model of `ShapedType::getDimSize(i)` on a type with dimension list `shape`. -/
def getDimSize (shape : List Int) (i : Nat) : Int := shape.getD i 0

/-- Model of `buildMatMulExecutable`: populate `out_def` with the fixed tag, the
single `main` entry point, the embedded `matmul.spv` code, the
three-binding pipeline layout and the `M`/`K`/`N` specialization constants
(ids 100, 101, 102), then return success.  `arg0` and `arg1` are the
dimension lists of the two dot operands; the first component of the result
is the `LogicalResult` (`true` = success), the second the state of
`out_def` on return. -/
def buildMatMulExecutable (table : List KernelEntry) (arg0 arg1 : List Int)
    (out_def : SpirVExecutableDefT) : Bool × SpirVExecutableDefT :=
  let d1 := { out_def with
    tag := "__matmul__"
    entry_points := ["main"]
    code := readEmbeddedKernelCode table "matmul.spv" }
  let dsl := addDescriptorSetLayoutBinding 2 (addDescriptorSetLayoutBinding 1
    (addDescriptorSetLayoutBinding 0 { bindings := [] }))
  let d2 := { d1 with
    pipeline_layout := some
      { buffer_binding_set := 0, descriptor_set_layouts := [dsl] } }
  let m := toU32 (if arg0.length = 3 then getDimSize arg0 1 else getDimSize arg0 0)
  let k := toU32 (if arg0.length = 3 then getDimSize arg0 2 else getDimSize arg0 1)
  let n := toU32 (if arg1.length = 3 then getDimSize arg1 2 else getDimSize arg1 1)
  let si := addSpecializationMapEntry 102 n (addSpecializationMapEntry 101 k
    (addSpecializationMapEntry 100 m { map_entries := [] }))
  let d3 := { d2 with specialization_info := some si }
  (true, d3)

/-- An operation as far as the rewrite scan can observe it: a convolution, a
dot (with the dimension lists of its two shaped operands), or anything
else. -/
inductive HloOp where
  | conv : HloOp
  | dot : List Int → List Int → HloOp
  | other : HloOp
deriving DecidableEq

/-- The innermost loop of `tryEmbeddedKernelRewrite` over the operations of
one block, with its early returns: `some r` models a `return` out of the
whole function with result `r = (return value, diagnostics, out_def)`,
`none` models falling through the loop. -/
def tryOnOps (table : List KernelEntry) (ops : List HloOp)
    (out_def : SpirVExecutableDefT) :
    Option (Bool × List String × SpirVExecutableDefT) :=
  match ops with
  | [] => none
  | HloOp.conv :: _ => some (false, ["Conv not yet implemented"], out_def)
  | HloOp.dot a0 a1 :: _ =>
      let r := buildMatMulExecutable table a0 a1 out_def
      if r.1 then some (true, [], r.2)
      else some (false, ["Failed to splat in the matmul kernel"], r.2)
  | HloOp.other :: rest => tryOnOps table rest out_def

/-- The middle loop over the blocks of one function. -/
def tryOnBlocks (table : List KernelEntry) (blocks : List (List HloOp))
    (out_def : SpirVExecutableDefT) :
    Option (Bool × List String × SpirVExecutableDefT) :=
  match blocks with
  | [] => none
  | b :: rest =>
      match tryOnOps table b out_def with
      | some r => some r
      | none => tryOnBlocks table rest out_def

/-- The outer loop over the functions of the inner module. -/
def tryOnFuncs (table : List KernelEntry) (funcs : List (List (List HloOp)))
    (out_def : SpirVExecutableDefT) :
    Option (Bool × List String × SpirVExecutableDefT) :=
  match funcs with
  | [] => none
  | f :: rest =>
      match tryOnBlocks table f out_def with
      | some r => some r
      | none => tryOnFuncs table rest out_def

/-- Model of `tryEmbeddedKernelRewrite`: scan every operation of every block of every
function in program order; a convolution emits a diagnostic and returns
false, a dot dispatches to `buildMatMulExecutable`, exhausting the module
returns false with no diagnostic.  Result: (return value, diagnostics
emitted on the executable op, final state of `out_def`). -/
def tryEmbeddedKernelRewrite (table : List KernelEntry)
    (module : List (List (List HloOp))) (out_def : SpirVExecutableDefT) :
    Bool × List String × SpirVExecutableDefT :=
  match tryOnFuncs table module out_def with
  | some r => r
  | none => (false, [], out_def)

/-- The operations of a block list, in program order. -/
def blocksOps : List (List HloOp) → List HloOp
  | [] => []
  | b :: rest => b ++ blocksOps rest

/-- The operations of a whole module, in program order (the order the
depth-first scan of `tryEmbeddedKernelRewrite` visits them). -/
def moduleOps : List (List (List HloOp)) → List HloOp
  | [] => []
  | f :: rest => blocksOps f ++ moduleOps rest

/-- Scanning an appended operation list early-exits on the left part first. -/
theorem tryOnOps_append (table : List KernelEntry) (l1 l2 : List HloOp)
    (d : SpirVExecutableDefT) :
    tryOnOps table (l1 ++ l2) d =
      match tryOnOps table l1 d with
      | some r => some r
      | none => tryOnOps table l2 d := by
  induction l1 with
  | nil => rfl
  | cons o rest ih =>
      cases o with
      | conv => rfl
      | dot a0 a1 => rfl
      | other => simpa [tryOnOps] using ih

/-- The block loop is the operation loop on the flattened block list. -/
theorem tryOnBlocks_eq (table : List KernelEntry) (blocks : List (List HloOp))
    (d : SpirVExecutableDefT) :
    tryOnBlocks table blocks d = tryOnOps table (blocksOps blocks) d := by
  induction blocks with
  | nil => rfl
  | cons b rest ih =>
      simp only [tryOnBlocks, blocksOps, tryOnOps_append, ih]

/-- The function loop is the operation loop on the flattened module. -/
theorem tryOnFuncs_eq (table : List KernelEntry)
    (funcs : List (List (List HloOp))) (d : SpirVExecutableDefT) :
    tryOnFuncs table funcs d = tryOnOps table (moduleOps funcs) d := by
  induction funcs with
  | nil => rfl
  | cons f rest ih =>
      simp only [tryOnFuncs, moduleOps, tryOnOps_append, tryOnBlocks_eq, ih]

/-- The whole rewrite in terms of the flattened program-order scan. -/
theorem tryEmbeddedKernelRewrite_eq (table : List KernelEntry)
    (module : List (List (List HloOp))) (d : SpirVExecutableDefT) :
    tryEmbeddedKernelRewrite table module d =
      match tryOnOps table (moduleOps module) d with
      | some r => r
      | none => (false, [], d) := by
  simp only [tryEmbeddedKernelRewrite, tryOnFuncs_eq]

/-- Unrecognized operations are skipped by the scan. -/
theorem tryOnOps_skip_other (table : List KernelEntry) (pre : List HloOp)
    (h : ∀ o ∈ pre, o = HloOp.other) (rest : List HloOp)
    (d : SpirVExecutableDefT) :
    tryOnOps table (pre ++ rest) d = tryOnOps table rest d := by
  induction pre with
  | nil => rfl
  | cons o tl ih =>
      have ho : o = HloOp.other := h o (List.mem_cons_self o tl)
      subst ho
      exact ih (fun o hmem => h o (List.mem_cons_of_mem _ hmem))

/-- Every possible outcome of the operation scan: fall-through, the
convolution hard stop with `out_def` untouched, or a successful matmul
build. -/
theorem tryOnOps_shape (table : List KernelEntry) (ops : List HloOp)
    (d : SpirVExecutableDefT) :
    tryOnOps table ops d = none ∨
    tryOnOps table ops d = some (false, ["Conv not yet implemented"], d) ∨
    ∃ a0 a1, tryOnOps table ops d =
      some (true, [], (buildMatMulExecutable table a0 a1 d).2) := by
  induction ops with
  | nil => exact Or.inl rfl
  | cons o rest ih =>
      cases o with
      | conv => exact Or.inr (Or.inl rfl)
      | dot a0 a1 => exact Or.inr (Or.inr ⟨a0, a1, rfl⟩)
      | other => simpa [tryOnOps] using ih

/-- C1 (code_bug evidence): on a kernel table without a `matmul.spv` entry
(here the empty table), `buildMatMulExecutable` still returns success, with
an empty `code` field, although the lookup returned the empty result — the
claimed failure report does not happen: the code never inspects the lookup
result. -/
theorem buildMatMulExecutable_empty_lookup_eval :
    readEmbeddedKernelCode [] "matmul.spv" = [] ∧
    (buildMatMulExecutable [] [2, 3] [3, 4] emptySpirVExecutableDef).1 = true ∧
    (buildMatMulExecutable [] [2, 3] [3, 4] emptySpirVExecutableDef).2.code = [] :=
  ⟨rfl, rfl, rfl⟩

/-- C2 (code_bug evidence): on a dot operation whose operand0 shape has the
dynamic-dimension sentinel `-1` at dimension 0, `buildMatMulExecutable`
returns success (emitting `M = 4294967295`) instead of the claimed assembly
failure — there is no static-shape check in the code. -/
theorem buildMatMulExecutable_dynamic_dim_eval :
    (buildMatMulExecutable [] [-1, 3] [3, 4] emptySpirVExecutableDef).1 = true ∧
    (buildMatMulExecutable [] [-1, 3] [3, 4] emptySpirVExecutableDef).2.specialization_info =
      some { map_entries :=
        [{ constant_id := 100, uint32_value := 4294967295 },
         { constant_id := 101, uint32_value := 3 },
         { constant_id := 102, uint32_value := 4 }] } :=
  ⟨rfl, by decide⟩

/-- C3 (counterexample): a static rank-2 dot operation with operand0 shape
`[4294967296, 7]` and operand1 shape `[7, 9]` assembles successfully, but
the emitted `M` constant is `0`, not the dimension size `4294967296` — the
narrowing to `uint32_t` is a transformation, so the constants are not
always exactly `m`, `k`, `n`. -/
theorem buildMatMulExecutable_large_dim_counterexample :
    (buildMatMulExecutable [] [4294967296, 7] [7, 9] emptySpirVExecutableDef).1 = true ∧
    (buildMatMulExecutable [] [4294967296, 7] [7, 9] emptySpirVExecutableDef).2.specialization_info =
      some { map_entries :=
        [{ constant_id := 100, uint32_value := 0 },
         { constant_id := 101, uint32_value := 7 },
         { constant_id := 102, uint32_value := 9 }] } ∧
    (0 : Nat) ≠ 4294967296 :=
  ⟨rfl, by decide, by decide⟩

/-- C3 (amended): for rank-2 operands `[m, k]` and `[k, n]` the emitted
specialization constants are exactly `m`, `k`, `n` reduced modulo `2 ^ 32`
(so exactly `m`, `k`, `n` whenever each dimension is below `2 ^ 32`), read
from dimensions 0 and 1 of operand0 and dimension 1 of operand1; for rank-3
operands `[b, m, k]` and `[b, k, n]` they are read from dimensions 1 and 2
of operand0 and dimension 2 of operand1, and the batch dimension `b` never
appears in the emitted entries (the result does not depend on `b`); the
three entries carry the fixed pairwise-distinct constant ids 100, 101, 102
in list order `M`, `K`, `N`. -/
theorem buildMatMulExecutable_mkn_dims (table : List KernelEntry)
    (b m k n : Int) (d : SpirVExecutableDefT) :
    ((buildMatMulExecutable table [m, k] [k, n] d).1 = true ∧
      (buildMatMulExecutable table [m, k] [k, n] d).2.specialization_info =
        some { map_entries :=
          [{ constant_id := 100, uint32_value := toU32 m },
           { constant_id := 101, uint32_value := toU32 k },
           { constant_id := 102, uint32_value := toU32 n }] }) ∧
    ((buildMatMulExecutable table [b, m, k] [b, k, n] d).1 = true ∧
      (buildMatMulExecutable table [b, m, k] [b, k, n] d).2.specialization_info =
        some { map_entries :=
          [{ constant_id := 100, uint32_value := toU32 m },
           { constant_id := 101, uint32_value := toU32 k },
           { constant_id := 102, uint32_value := toU32 n }] }) ∧
    ((100 : Nat) ≠ 101 ∧ (100 : Nat) ≠ 102 ∧ (101 : Nat) ≠ 102) :=
  ⟨⟨rfl, rfl⟩, ⟨rfl, rfl⟩, by decide, by decide, by decide⟩

/-- C4: every `buildMatMulExecutable` result is a success whose definition
carries the fixed tag `__matmul__`, the single entry point `main`, and a
pipeline layout at buffer binding set 0 with one descriptor-set layout of
exactly three bindings 0, 1, 2 in order, each with descriptor count 1,
descriptor type 7 (storage buffer) and stage flags 0x20 (compute only),
independently of the operand shapes. -/
theorem buildMatMulExecutable_layout (table : List KernelEntry)
    (arg0 arg1 : List Int) (d : SpirVExecutableDefT) :
    (buildMatMulExecutable table arg0 arg1 d).1 = true ∧
    (buildMatMulExecutable table arg0 arg1 d).2.tag = "__matmul__" ∧
    (buildMatMulExecutable table arg0 arg1 d).2.entry_points = ["main"] ∧
    (buildMatMulExecutable table arg0 arg1 d).2.pipeline_layout =
      some { buffer_binding_set := 0,
             descriptor_set_layouts :=
               [{ bindings :=
                 [{ binding := 0, descriptor_count := 1, descriptor_type := 7,
                    stage_flags := 0x20 },
                  { binding := 1, descriptor_count := 1, descriptor_type := 7,
                    stage_flags := 0x20 },
                  { binding := 2, descriptor_count := 1, descriptor_type := 7,
                    stage_flags := 0x20 }] }] } :=
  ⟨rfl, rfl, rfl, rfl⟩

/-- C5: if the first recognized operation in the program-order scan of the
unit is a convolution (everything before it is unrecognized), then
`tryEmbeddedKernelRewrite` emits exactly the one `Conv not yet implemented`
diagnostic, returns false, and leaves `out_def` untouched — regardless of
what follows the convolution, so a later dot in the same unit is never
reached. -/
theorem tryEmbeddedKernelRewrite_conv_first (table : List KernelEntry)
    (module : List (List (List HloOp))) (d : SpirVExecutableDefT)
    (pre post : List HloOp)
    (hsplit : moduleOps module = pre ++ HloOp.conv :: post)
    (hpre : ∀ o ∈ pre, o = HloOp.other) :
    tryEmbeddedKernelRewrite table module d =
      (false, ["Conv not yet implemented"], d) := by
  rw [tryEmbeddedKernelRewrite_eq, hsplit,
    tryOnOps_skip_other table pre hpre (HloOp.conv :: post) d]
  rfl

/-- C5 witness: a unit holding one unrecognized op, then a convolution, then
a dot: the rewrite stops at the convolution with one diagnostic. -/
theorem tryEmbeddedKernelRewrite_conv_first_witness :
    tryEmbeddedKernelRewrite []
        [[[HloOp.other, HloOp.conv, HloOp.dot [2, 2] [2, 2]]]]
        emptySpirVExecutableDef =
      (false, ["Conv not yet implemented"], emptySpirVExecutableDef) :=
  tryEmbeddedKernelRewrite_conv_first [] _ emptySpirVExecutableDef
    [HloOp.other] [HloOp.dot [2, 2] [2, 2]] rfl (by decide)

/-- C6: a unit whose scan finds no recognized operation at all (every op of
every block of every function is unrecognized) yields a clean no-match:
return value false, zero diagnostics, `out_def` untouched. -/
theorem tryEmbeddedKernelRewrite_no_match (table : List KernelEntry)
    (module : List (List (List HloOp))) (d : SpirVExecutableDefT)
    (h : ∀ o ∈ moduleOps module, o = HloOp.other) :
    tryEmbeddedKernelRewrite table module d = (false, [], d) := by
  have h2 : tryOnOps table (moduleOps module) d = none := by
    have := tryOnOps_skip_other table (moduleOps module) h [] d
    simpa using this
  rw [tryEmbeddedKernelRewrite_eq, h2]

/-- C6 witness: a module of two functions, one with an unrecognized op and
an empty block, one empty, is a clean no-match. -/
theorem tryEmbeddedKernelRewrite_no_match_witness :
    tryEmbeddedKernelRewrite [] [[[HloOp.other], []], []]
        emptySpirVExecutableDef =
      (false, [], emptySpirVExecutableDef) :=
  tryEmbeddedKernelRewrite_no_match [] _ _ (by decide)

/-- Entries whose names differ from the queried name are skipped by the
table scan. -/
theorem readEmbeddedKernelCode_skip (kernelName : String)
    (pre : List KernelEntry) (h : ∀ x ∈ pre, x.name ≠ kernelName)
    (rest : List KernelEntry) :
    readEmbeddedKernelCode (pre ++ rest) kernelName =
      readEmbeddedKernelCode rest kernelName := by
  induction pre with
  | nil => rfl
  | cons e tl ih =>
      have he : e.name ≠ kernelName := h e (List.mem_cons_self e tl)
      simp only [List.cons_append, readEmbeddedKernelCode, if_neg he]
      exact ih (fun x hmem => h x (List.mem_cons_of_mem _ hmem))

/-- C7: the lookup is an exact-name first-match scan: if no entry of the
table carries the queried name the result is empty, and if the table splits
as `pre ++ e :: post` with no match in `pre` and `e` an exact match, the
result is exactly the bytes of `e` reinterpreted as `e.size / 4` four-byte
words. -/
theorem readEmbeddedKernelCode_lookup (table : List KernelEntry)
    (kernelName : String) :
    ((∀ e ∈ table, e.name ≠ kernelName) →
      readEmbeddedKernelCode table kernelName = []) ∧
    (∀ pre e post, table = pre ++ e :: post →
      (∀ x ∈ pre, x.name ≠ kernelName) → e.name = kernelName →
      readEmbeddedKernelCode table kernelName = bytesToWords e.data e.size ∧
      (readEmbeddedKernelCode table kernelName).length = e.size / 4) := by
  constructor
  · intro h
    have := readEmbeddedKernelCode_skip kernelName table h []
    simpa using this
  · intro pre e post hsplit hpre he
    subst hsplit
    have hread : readEmbeddedKernelCode (e :: post) kernelName =
        bytesToWords e.data e.size := by
      simp only [readEmbeddedKernelCode, if_pos he]
    rw [readEmbeddedKernelCode_skip kernelName pre hpre (e :: post), hread]
    refine ⟨rfl, ?_⟩
    simp [bytesToWords]

/-- C7 witness: a miss on a one-entry table returns the empty result; a hit
behind a non-matching entry returns that entry reinterpreted as words. -/
theorem readEmbeddedKernelCode_lookup_witness :
    readEmbeddedKernelCode [⟨"add.spv", [], 0⟩] "matmul.spv" = [] ∧
    readEmbeddedKernelCode
        [⟨"add.spv", [], 0⟩, ⟨"matmul.spv", [3, 2, 35, 7], 4⟩] "matmul.spv" =
      bytesToWords [3, 2, 35, 7] 4 :=
  ⟨(readEmbeddedKernelCode_lookup [⟨"add.spv", [], 0⟩] "matmul.spv").1
      (by decide),
   ((readEmbeddedKernelCode_lookup
        [⟨"add.spv", [], 0⟩, ⟨"matmul.spv", [3, 2, 35, 7], 4⟩]
        "matmul.spv").2
      [⟨"add.spv", [], 0⟩] ⟨"matmul.spv", [3, 2, 35, 7], 4⟩ [] rfl
      (by decide) rfl).1⟩

/-- C8: `buildMatMulExecutable` returns success on every input (it performs
no check that can fail), so the `Failed to splat in the matmul kernel`
branch of `tryEmbeddedKernelRewrite` is unreachable: that diagnostic is
never among the emitted ones, for any module. -/
theorem buildMatMulExecutable_never_fails (table : List KernelEntry)
    (arg0 arg1 : List Int) (d : SpirVExecutableDefT)
    (module : List (List (List HloOp))) (d0 : SpirVExecutableDefT) :
    (buildMatMulExecutable table arg0 arg1 d).1 = true ∧
    "Failed to splat in the matmul kernel" ∉
      (tryEmbeddedKernelRewrite table module d0).2.1 := by
  refine ⟨rfl, ?_⟩
  rw [tryEmbeddedKernelRewrite_eq]
  rcases tryOnOps_shape table (moduleOps module) d0 with h | h | ⟨a0, a1, h⟩
  · rw [h]
    exact List.not_mem_nil _
  · rw [h]
    intro hmem
    simp only [List.mem_singleton] at hmem
    exact absurd hmem (by decide)
  · rw [h]
    exact List.not_mem_nil _

/-- C9: each specialization-constant value is the corresponding operand
dimension size reduced modulo `2 ^ 32`; in particular the dynamic-dimension
sentinel `-1` is emitted as `4294967295` (for every operand position) and
the build still succeeds. -/
theorem buildMatMulExecutable_u32_values (table : List KernelEntry)
    (x y z : Int) (d : SpirVExecutableDefT) :
    (buildMatMulExecutable table [x, y] [y, z] d).2.specialization_info =
      some { map_entries :=
        [{ constant_id := 100, uint32_value := (x % 2 ^ 32).toNat },
         { constant_id := 101, uint32_value := (y % 2 ^ 32).toNat },
         { constant_id := 102, uint32_value := (z % 2 ^ 32).toNat }] } ∧
    toU32 (-1) = 4294967295 ∧
    (buildMatMulExecutable table [-1, -1] [-1, -1] d).1 = true ∧
    (buildMatMulExecutable table [-1, -1] [-1, -1] d).2.specialization_info =
      some { map_entries :=
        [{ constant_id := 100, uint32_value := 4294967295 },
         { constant_id := 101, uint32_value := 4294967295 },
         { constant_id := 102, uint32_value := 4294967295 }] } := by
  have h1 : toU32 (-1) = 4294967295 := by decide
  refine ⟨rfl, h1, rfl, ?_⟩
  have h2 : (buildMatMulExecutable table [-1, -1] [-1, -1] d).2.specialization_info =
      some { map_entries :=
        [{ constant_id := 100, uint32_value := toU32 (-1) },
         { constant_id := 101, uint32_value := toU32 (-1) },
         { constant_id := 102, uint32_value := toU32 (-1) }] } := rfl
  rw [h2, h1]

/-- C10: whenever `tryEmbeddedKernelRewrite` returns false, the out
definition is returned exactly as it was passed in — no field is written on
any non-success path. -/
theorem tryEmbeddedKernelRewrite_frame (table : List KernelEntry)
    (module : List (List (List HloOp))) (d : SpirVExecutableDefT)
    (h : (tryEmbeddedKernelRewrite table module d).1 = false) :
    (tryEmbeddedKernelRewrite table module d).2.2 = d := by
  rcases tryOnOps_shape table (moduleOps module) d with h2 | h2 | ⟨a0, a1, h2⟩
  · rw [tryEmbeddedKernelRewrite_eq, h2]
  · rw [tryEmbeddedKernelRewrite_eq, h2]
  · rw [tryEmbeddedKernelRewrite_eq, h2] at h
    exact absurd h (by simp)

/-- C10 witness: on a unit stopped by a convolution the returned definition
is the unchanged input definition. -/
theorem tryEmbeddedKernelRewrite_frame_witness :
    (tryEmbeddedKernelRewrite [] [[[HloOp.conv]]] emptySpirVExecutableDef).2.2 =
      emptySpirVExecutableDef :=
  tryEmbeddedKernelRewrite_frame [] _ _ (by decide)
